import Mathlib

/-!
Verification development for the pulp-docs navigation-tree assembly core
(`src/pulp_docs/navigation.py` and `src/pulp_docs/repository.py`).

The Python code is shallowly embedded:

* Filesystem state is a pure lookup `FS : String → Option (List String)`:
  a directory path (relative to the working tmpdir) maps to the list of
  names of its immediate children when the directory exists, `none`
  otherwise.  All path handling in the source is relative to the tmpdir,
  which therefore drops out of the model.
* Python dicts are association lists with Python's insertion-order
  semantics (`dictSet` replaces in place, appends new keys at the end).
* Raising code (`getattr` misses, `DISPLAY_NAMES[...]` key errors,
  `repos["core"][0]` on an empty list) is modelled with `Except String`.
* `str.format` placeholder substitution is modelled by literal textual
  replacement of `{repo}`, `{admin}`, `{user}` and `{content}`.  This is
  faithful whenever the substituted values contain no brace sequences,
  which holds for every call site and every input considered here.
* String functions are re-implemented over `List Char` by structural
  recursion so that concrete instances reduce inside the kernel; on the
  ASCII file names involved they agree with Python's `str` methods.

Download, YAML parsing and other I/O glue are out of scope, as the
repository's own design notes state; only the post-parse construction
logic of `Repos.from_yaml` is modelled (for the construction claims).
-/

namespace PulpDocs

/-! ### Character/string primitives -/

/-- Lexicographic comparison of character lists by code point, the order
Python's `sorted` uses on strings. -/
def charListLe : List Char → List Char → Bool
  | [], _ => true
  | _ :: _, [] => false
  | a :: as, b :: bs => if a = b then charListLe as bs else decide (a < b)

/-- `strLe a b` is Python's `a <= b` on strings. -/
def strLe (a b : String) : Bool := charListLe a.toList b.toList

/-- The string order as a binary relation, for `List.insertionSort`. -/
def strRel (a b : String) : Prop := strLe a b = true

instance : DecidableRel strRel := fun a b => instDecidableEqBool (strLe a b) true

/-- Python `s.endswith(suffix)`. -/
def strEndsWith (s suffix : String) : Bool := suffix.toList.isSuffixOf s.toList

/-- Python `s.startswith(pre)`. -/
def strStartsWith (s pre : String) : Bool := pre.toList.isPrefixOf s.toList

/-- Python `s.lower()` (ASCII-faithful). -/
def lowerStr (s : String) : String := String.mk (s.toList.map Char.toLower)

/-- Python `path.split("/")[-1]`: the characters after the last slash. -/
def fileNameOf (p : String) : String :=
  String.mk ((p.toList.reverse.takeWhile (fun c => !(c = '/'))).reverse)

/-- Fuel-driven single-pattern replacement on character lists,
left-to-right and non-overlapping, as Python `str.replace` /
`str.format` substitution behaves for one field. -/
def replChars (pat rep : List Char) : Nat → List Char → List Char
  | 0, l => l
  | _ + 1, [] => []
  | fuel + 1, c :: rest =>
    if pat.isPrefixOf (c :: rest) then rep ++ replChars pat rep fuel ((c :: rest).drop pat.length)
    else c :: replChars pat rep fuel rest

/-- Replace every occurrence of `pat` in `s` by `rep`. -/
def strReplace (s pat rep : String) : String :=
  String.mk (replChars pat.toList rep.toList (s.toList.length + 1) s.toList)

/-- Substring occurrence test on character lists. -/
def containsSub (pat : List Char) : List Char → Bool
  | [] => pat.isPrefixOf []
  | c :: rest => pat.isPrefixOf (c :: rest) || containsSub pat rest

/-- Python `"{content}" in template_str` (`navigation.py` line 249). -/
def hasContentField (template : String) : Bool :=
  containsSub "{content}".toList template.toList

/-! ### Python dict operations (insertion-ordered association lists) -/

/-- Python `d[k] = v`: replace in place if the key exists, else append. -/
def dictSet {α : Type} (d : List (String × α)) (k : String) (v : α) : List (String × α) :=
  match d with
  | [] => [(k, v)]
  | (k', v') :: rest => if k' = k then (k, v) :: rest else (k', v') :: dictSet rest k v

/-- Python `d.get(k)`. -/
def dictGet {α : Type} (d : List (String × α)) (k : String) : Option α :=
  match d with
  | [] => none
  | (k', v) :: rest => if k' = k then some v else dictGet rest k

/-- The keys of a dict, in order. -/
def dictKeys {α : Type} (d : List (String × α)) : List String := d.map (·.1)

/-! ### Data model (`repository.py`) -/

/-- `Repo` dataclass of `repository.py` (download-status bookkeeping
fields `local_basepath` and `status`, pure I/O glue, are omitted as out
of scope). -/
structure Repo where
  title : String
  name : String
  owner : String
  branch : String
  type : Option String
deriving DecidableEq

/-- `Repos` dataclass of `repository.py`: one core repo plus content and
other repo lists. -/
structure Repos where
  core_repo : Repo
  content_repos : List Repo
  other_repos : List Repo
deriving DecidableEq

/-- The `Repos.all` property: `[self.core_repo] + self.content_repos +
self.other_repos`. -/
def Repos.all (r : Repos) : List Repo := [r.core_repo] ++ r.content_repos ++ r.other_repos

/-- The per-repository fields read out of one YAML `repos:` entry. -/
structure RepoData where
  title : String
  name : String
deriving DecidableEq

/-- `Repo(**entry, type=ty)` applied to a parsed YAML entry, with the
dataclass defaults `owner="pulp"`, `branch="main"`. -/
def repoOfData (d : RepoData) (ty : String) : Repo :=
  { title := d.title, name := d.name, owner := "pulp", branch := "main", type := some ty }

/-- The construction logic of `Repos.from_yaml` after YAML parsing
(file I/O and `yaml.load` are out of scope): `repos["core"][0]` raises
`IndexError` on an empty core list, then the three buckets are built with
no further validation — in particular no duplicate-name check. -/
def repos_from_yaml (core content other : List RepoData) : Except String Repos :=
  match core with
  | [] => Except.error "IndexError: list index out of range"
  | c :: _ =>
    Except.ok
      { core_repo := repoOfData c "core"
        content_repos := content.map (fun d => repoOfData d "content")
        other_repos := other.map (fun d => repoOfData d "other") }

/-! ### File discovery (`AgregationUtils.get_children`) -/

/-- The filesystem under the working tmpdir: a directory path maps to
the names of its immediate children if it exists, else `none`. -/
def FS : Type := String → Option (List String)

/-- `AgregationUtils.get_children` (`navigation.py` lines 202-214):
all immediate `*.md` children of `path` that do not start with `_`,
as paths relative to the tmpdir, sorted ascending (Python `sorted`).
A missing directory yields `[]`, as `Path.glob` does. -/
def get_children (fs : FS) (path : String) : List String :=
  match fs path with
  | none => []
  | some entries =>
    List.insertionSort strRel
      ((entries.filter (fun n => strEndsWith n ".md" && !strStartsWith n "_")).map
        (fun n => path ++ "/" ++ n))

/-! ### Template expansion and repository selection (`repo_grouping`) -/

/-- `template_str.format(repo=.., admin="admin", user="user")` — the
non-content form used when `{content}` is absent. -/
def formatRepo (template repoName : String) : String :=
  strReplace (strReplace (strReplace template "{repo}" repoName) "{admin}" "admin")
    "{user}" "user"

/-- `template_str.format(repo=.., admin="admin", user="user", content=..)`. -/
def formatRepoContent (template repoName content : String) : String :=
  strReplace (formatRepo template repoName) "{content}" content

/-- `DISPLAY_NAMES` (`navigation.py` lines 37-42), with dict lookup
returning `none` where Python raises `KeyError`. -/
def DISPLAY_NAMES : String → Option String
  | "guides" => some "How-to"
  | "learn" => some "Learn"
  | "tutorials" => some "Tutorials"
  | "reference" => some "Reference"
  | _ => none

/-- `getattr(self.repos, attr)` restricted to list-of-repo attributes:
the `Repos` dataclass has `content_repos` and `other_repos` (and the
scalar `core_repo`); any other `*_repos` name is an `AttributeError`. -/
def getattr_repos (repos : Repos) (attr : String) : Option (List Repo) :=
  if attr = "content_repos" then some repos.content_repos
  else if attr = "other_repos" then some repos.other_repos
  else none

/-- The selection loop of `repo_grouping` (lines 257-258):
`selected_repos.extend(getattr(self.repos, f"{repo_name}_repos"))`. -/
def selectGo (repos : Repos) : List String → List Repo → Except String (List Repo)
  | [], acc => Except.ok acc
  | n :: ns, acc =>
    match getattr_repos repos (n ++ "_repos") with
    | some rs => selectGo repos ns (acc ++ rs)
    | none => Except.error ("AttributeError: 'Repos' object has no attribute '" ++ n ++ "_repos'")

/-- Lines 254-258: a falsy `repo_types` (None or `[]`) selects
`self.repos.all`, otherwise the attribute-lookup loop runs. -/
def select_repos (repos : Repos) (repo_types : Option (List String)) :
    Except String (List Repo) :=
  match repo_types with
  | none => Except.ok repos.all
  | some [] => Except.ok repos.all
  | some ns => selectGo repos ns []

/-- `AgregationUtils._pop_quickstart_from` (lines 294-301): remove and
return the first path whose file name lowercases to `quickstart.md` or
`quick-start.md`; other elements keep their order. -/
def popQuickstart : List String → Option String × List String
  | [] => (none, [])
  | p :: rest =>
    if lowerStr (fileNameOf p) = "quickstart.md" ∨ lowerStr (fileNameOf p) = "quick-start.md" then
      (some p, rest)
    else
      let r := popQuickstart rest
      (r.1, p :: r.2)

/-- A value of the inner per-repository dict in content-type-expanding
grouping: the `Quickstart` key holds a single path, a content-type key
holds a path list. -/
inductive QNav where
  | single : String → QNav
  | files : List String → QNav
deriving DecidableEq

/-- The result of `repo_grouping`: a flat `{title: [paths]}` dict when
`{content}` is absent, a nested `{title: {label: ...}}` dict when it is
present. -/
inductive GroupResult where
  | simple : List (String × List String) → GroupResult
  | expanded : List (String × List (String × QNav)) → GroupResult
deriving DecidableEq

/-- The inner content-type loop of `repo_grouping` (lines 273-290) for
one repository: discover, pop the quickstart file (unconditionally!),
record it under `Quickstart` when the content type is `tutorials`, and
record the remaining list under its display name when non-empty
(`DISPLAY_NAMES[content_type]` raises on unknown content types). -/
def contentInnerGo (fs : FS) (template repoName : String) :
    List String → List (String × QNav) → Except String (List (String × QNav))
  | [], inner => Except.ok inner
  | ct :: cts, inner =>
    let files := get_children fs (formatRepoContent template repoName ct)
    let popped := popQuickstart files
    let inner1 :=
      if lowerStr ct = "tutorials" then
        match popped.1 with
        | some f => dictSet inner "Quickstart" (QNav.single f)
        | none => inner
      else inner
    if popped.2 = [] then contentInnerGo fs template repoName cts inner1
    else
      match DISPLAY_NAMES ct with
      | some label =>
        contentInnerGo fs template repoName cts (dictSet inner1 label (QNav.files popped.2))
      | none => Except.error ("KeyError: " ++ ct)

/-- The inner dict built for one repository (starts from `{}`). -/
def contentInner (fs : FS) (template repoName : String) (cts : List String) :
    Except String (List (String × QNav)) :=
  contentInnerGo fs template repoName cts []

/-- The repository loop of the content-type-expanding branch
(lines 271-290): `_nav[repo.title] = {}` runs unconditionally, then the
inner dict is filled in. -/
def expandedGo (fs : FS) (template : String) (cts : List String) :
    List Repo → List (String × List (String × QNav)) →
    Except String (List (String × List (String × QNav)))
  | [], nav => Except.ok nav
  | repo :: rs, nav =>
    match contentInner fs template repo.name cts with
    | Except.error e => Except.error e
    | Except.ok inner => expandedGo fs template cts rs (dictSet nav repo.title inner)

/-- The repository loop of the non-expanding branch (lines 262-268): a
repository is recorded only when its discovered list is non-empty. -/
def simpleGo (fs : FS) (template : String) :
    List Repo → List (String × List String) → List (String × List String)
  | [], nav => nav
  | repo :: rs, nav =>
    let files := get_children fs (formatRepo template repo.name)
    simpleGo fs template rs (if files = [] then nav else dictSet nav repo.title files)

/-- `content_types or ["tutorials", "guides", "learn"]` (line 253): a
falsy argument (None or `[]`) falls back to the default list. -/
def resolved_content_types (content_types : Option (List String)) : List String :=
  match content_types with
  | none => ["tutorials", "guides", "learn"]
  | some [] => ["tutorials", "guides", "learn"]
  | some cts => cts

/-- `AgregationUtils.repo_grouping` (lines 216-292).  `content_types`
falls back to `["tutorials", "guides", "learn"]` when falsy; the branch
is chosen by the literal presence of `{content}` in the template. -/
def repo_grouping (fs : FS) (repos : Repos) (template : String)
    (repo_types content_types : Option (List String)) : Except String GroupResult :=
  let selected_content := resolved_content_types content_types
  match select_repos repos repo_types with
  | Except.error e => Except.error e
  | Except.ok selected_repos =>
    if hasContentField template then
      match expandedGo fs template selected_content selected_repos [] with
      | Except.error e => Except.error e
      | Except.ok nav => Except.ok (GroupResult.expanded nav)
    else
      Except.ok (GroupResult.simple (simpleGo fs template selected_repos []))

/-! ### Reference grouping and section helpers -/

/-- A value of one reference section: a fixed link or a discovered file
listing. -/
inductive RefVal where
  | link : String → RefVal
  | files : List String → RefVal
deriving DecidableEq

/-- The four fixed sections built for one repository by
`repo_reference_grouping` (lines 320-327). -/
def refSections (fs : FS) (repo : Repo) : List (String × RefVal) :=
  [("REST API", RefVal.link (repo.name ++ "/docs/rest_api.md")),
   ("Readme", RefVal.link (repo.name ++ "/README.md")),
   ("Code API", RefVal.files (get_children fs (strReplace "{repo}/docs/reference" "{repo}" repo.name))),
   ("Changelog", RefVal.link (repo.name ++ "/CHANGELOG.md"))]

/-- The repository loop of `repo_reference_grouping`. -/
def refGo (fs : FS) : List Repo → List (String × List (String × RefVal)) →
    List (String × List (String × RefVal))
  | [], nav => nav
  | repo :: rs, nav => refGo fs rs (dictSet nav repo.title (refSections fs repo))

/-- `AgregationUtils.repo_reference_grouping` (lines 303-329): iterates
`self.repos.all`. -/
def repo_reference_grouping (fs : FS) (repos : Repos) :
    List (String × List (String × RefVal)) :=
  refGo fs repos.all []

/-- `AgregationUtils.section_file` (lines 331-334): the fixed base path
is the literal `pulpcore/docs/sections`. -/
def section_file (section_and_filename : String) : String :=
  "pulpcore/docs/sections/" ++ section_and_filename

/-- `AgregationUtils.section_children` (lines 336-340). -/
def section_children (fs : FS) (section_name : String) : List String :=
  get_children fs ("pulpcore/docs/sections/" ++ section_name)

/-! ### The navigation tree (`grouped_by_persona`, `get_navigation`) -/

/-- A mkdocs-style navigation node: a bare path, a list of nodes, or an
insertion-ordered dict of titled children. -/
inductive Nav where
  | str : String → Nav
  | items : List Nav → Nav
  | dict : List (String × Nav) → Nav

/-- A Python list of path strings as a navigation node. -/
def navOfFiles (l : List String) : Nav := Nav.items (l.map Nav.str)

/-- Inject an inner grouping value into the navigation tree. -/
def navOfQ : QNav → Nav
  | QNav.single f => Nav.str f
  | QNav.files l => navOfFiles l

/-- Inject a `repo_grouping` result into the navigation tree. -/
def navOfGroup : GroupResult → Nav
  | GroupResult.simple m => Nav.dict (m.map (fun e => (e.1, navOfFiles e.2)))
  | GroupResult.expanded m =>
    Nav.dict (m.map (fun e => (e.1, Nav.dict (e.2.map (fun i => (i.1, navOfQ i.2))))))

/-- Inject one reference section value. -/
def navOfRefVal : RefVal → Nav
  | RefVal.link f => Nav.str f
  | RefVal.files l => navOfFiles l

/-- Inject a `repo_reference_grouping` result: each repository maps to
its list of four single-key section dicts. -/
def navOfRef (m : List (String × List (String × RefVal))) : Nav :=
  Nav.dict (m.map (fun e => (e.1, Nav.items (e.2.map (fun s => Nav.dict [(s.1, navOfRefVal s.2)])))))

/-- One persona section of `grouped_by_persona` (the `usage_section`,
`admin_section` and `development_section` share this shape, lines 77-130):
Overview, Getting Started discovered from the hard-coded
`pulpcore/docs/<persona>` paths, then Plugins and Extras. -/
def personaSection (fs : FS) (overview : String) (persona : String)
    (plugins extras : GroupResult) : Nav :=
  Nav.items
    [Nav.dict [("Overview", Nav.str (section_file overview))],
     Nav.dict [("Getting Started", Nav.dict
       [("Tutorial", navOfFiles (get_children fs ("pulpcore/docs/" ++ persona ++ "/tutorials"))),
        ("Learn", navOfFiles (get_children fs ("pulpcore/docs/" ++ persona ++ "/learn"))),
        ("How-to", navOfFiles (get_children fs ("pulpcore/docs/" ++ persona ++ "/guides")))])],
     Nav.dict [("Plugins", navOfGroup plugins)],
     Nav.dict [("Extras", navOfGroup extras)]]

/-- `grouped_by_persona` (`navigation.py` lines 56-141), with the
fallible `repo_grouping` calls sequenced in source order. -/
def grouped_by_persona (fs : FS) (repos : Repos) : Except String Nav := do
  let help_section : Nav := Nav.items
    [Nav.dict [("Overview", Nav.str (section_file "help/index.md"))],
     Nav.dict [("Bugs, Feature and Backport Requests",
       Nav.str (section_file "help/bugs-features.md"))]]
  let userPlugins ← repo_grouping fs repos "{repo}/docs/user/{content}" (some ["content"]) none
  let userExtras ← repo_grouping fs repos "{repo}/docs/user/{content}" (some ["other"]) none
  let usage_section := personaSection fs "usage/index.md" "user" userPlugins userExtras
  let adminPlugins ← repo_grouping fs repos "{repo}/docs/admin/{content}" (some ["content"]) none
  let adminExtras ← repo_grouping fs repos "{repo}/docs/admin/{content}" (some ["other"]) none
  let admin_section := personaSection fs "admin/index.md" "admin" adminPlugins adminExtras
  let reference_section : Nav := Nav.items
    [Nav.dict [("Overview", Nav.str (section_file "reference/index.md"))],
     Nav.dict [("Repository Map", Nav.str (section_file "reference/01-repository-map.md"))],
     Nav.dict [("Glossary", Nav.str (section_file "reference/02-glossary.md"))],
     Nav.dict [("Repositories", navOfRef (repo_reference_grouping fs repos))]]
  let devPlugins ← repo_grouping fs repos "{repo}/docs/dev/{content}" (some ["content"]) none
  let devExtras ← repo_grouping fs repos "{repo}/docs/dev/{content}" (some ["other"]) none
  let development_section := personaSection fs "development/index.md" "dev" devPlugins devExtras
  pure (Nav.items
    [Nav.dict [("Home", Nav.str "index.md")],
     Nav.dict [("User Manual", usage_section)],
     Nav.dict [("Admin Manual", admin_section)],
     Nav.dict [("Development", development_section)],
     Nav.dict [("Reference", reference_section)],
     Nav.dict [("Help", help_section)]])

/-- `get_navigation` (lines 45-53): the active generator is
`grouped_by_persona`. -/
def get_navigation (fs : FS) (repos : Repos) : Except String Nav :=
  grouped_by_persona fs repos

/-- Look a title up in a list of (possibly single-key) dicts, the way a
mkdocs section list is consumed. -/
def navListLookup : List Nav → String → Option Nav
  | [], _ => none
  | Nav.dict es :: rest, k =>
    match dictGet es k with
    | some v => some v
    | none => navListLookup rest k
  | _ :: rest, k => navListLookup rest k

/-- Fetch the child with the given title from a navigation node. -/
def sectionGet (n : Nav) (k : String) : Option Nav :=
  match n with
  | Nav.items l => navListLookup l k
  | Nav.dict es => dictGet es k
  | Nav.str _ => none

/-! ### Specification-side definitions and concrete fixtures -/

/-- The filtered, tmpdir-relative listing that `get_children` sorts. -/
def childListing (path : String) (entries : List String) : List String :=
  (entries.filter (fun n => strEndsWith n ".md" && !strStartsWith n "_")).map
    (fun n => path ++ "/" ++ n)

/-- Every content-type (`QNav.files`) entry of an inner dict is a
non-empty list. -/
def innerOk (inner : List (String × QNav)) : Prop :=
  ∀ e ∈ inner, ∀ l, e.2 = QNav.files l → l ≠ []

/-- Every inner dict of an expanded grouping satisfies `innerOk`. -/
def navOk (nav : List (String × List (String × QNav))) : Prop :=
  ∀ e ∈ nav, innerOk e.2

/-- A completely empty filesystem: no directory exists. -/
def emptyFS : FS := fun _ => none

/-- A fixture content repository. -/
def repoPkgA : Repo :=
  { title := "Pkg A", name := "pkg", owner := "pulp", branch := "main", type := some "content" }

/-- A fixture primary repository whose `name` is `core`, as in the
package's own `Repos.test_fixtures`. -/
def repoCore : Repo :=
  { title := "Pulp Core", name := "core", owner := "pulp", branch := "main", type := some "core" }

/-- A fixture repository set: primary `core` plus one content repo. -/
def reposFix : Repos :=
  { core_repo := repoCore, content_repos := [repoPkgA], other_repos := [] }

/-- A fixture filesystem: `pkg` has admin guides (among them a
`quickstart.md`) and admin tutorials; the primary repository (named
`core`) has user tutorials. -/
def fsFix : FS := fun p =>
  if p = "pkg/docs/admin/guides" then some ["quickstart.md", "a.md"]
  else if p = "pkg/docs/admin/tutorials" then some ["intro.md", "quickstart.md", "advanced.md"]
  else if p = "core/docs/user/tutorials" then some ["first-steps.md"]
  else none

/-- A fixture directory listing for the sort/exclusion examples. -/
def fsSortFix : FS := fun p =>
  if p = "d" then some ["b.md", "a.md", "c.md", "_draft.md", "notes.txt"] else none

/-! ### Order lemmas for the string comparison -/

theorem charListLe_total : ∀ as bs, charListLe as bs = true ∨ charListLe bs as = true
  | [], _ => Or.inl rfl
  | _ :: _, [] => Or.inr rfl
  | a :: as, b :: bs => by
    by_cases hab : a = b
    · subst hab
      simpa [charListLe] using charListLe_total as bs
    · rcases lt_trichotomy a b with h | h | h
      · left; simp [charListLe, hab, h]
      · exact absurd h hab
      · right
        have hba : ¬(b = a) := fun e => hab e.symm
        simp [charListLe, hba, h]

theorem charListLe_trans :
    ∀ as bs cs, charListLe as bs = true → charListLe bs cs = true → charListLe as cs = true
  | [], _, _, _, _ => rfl
  | _ :: _, [], _, h, _ => by simp [charListLe] at h
  | _ :: _, _ :: _, [], _, h => by simp [charListLe] at h
  | a :: as, b :: bs, c :: cs, h1, h2 => by
    by_cases hab : a = b <;> by_cases hbc : b = c
    · subst hab; subst hbc
      simp only [charListLe, if_pos rfl] at h1 h2 ⊢
      exact charListLe_trans as bs cs h1 h2
    · subst hab
      simp only [charListLe, if_pos rfl] at h1
      simp only [charListLe, if_neg hbc] at h2 ⊢
      exact h2
    · subst hbc
      simp only [charListLe, if_neg hab] at h1 ⊢
      exact h1
    · simp only [charListLe, if_neg hab] at h1
      simp only [charListLe, if_neg hbc] at h2
      have hac : a < c := lt_trans (of_decide_eq_true h1) (of_decide_eq_true h2)
      have hne : ¬(a = c) := ne_of_lt hac
      simp [charListLe, hne, hac]

instance : IsTotal String strRel := ⟨fun a b => charListLe_total a.toList b.toList⟩

instance : IsTrans String strRel :=
  ⟨fun a b c h1 h2 => charListLe_trans a.toList b.toList c.toList h1 h2⟩

/-! ### Dict lemmas -/

theorem dictGet_dictSet_self {α : Type} (d : List (String × α)) (k : String) (v : α) :
    dictGet (dictSet d k v) k = some v := by
  induction d with
  | nil => simp [dictSet, dictGet]
  | cons e rest ih =>
    by_cases h : e.1 = k
    · simp [dictSet, dictGet, h]
    · simpa [dictSet, dictGet, h] using ih

theorem dictGet_dictSet_ne {α : Type} (d : List (String × α)) {k' k : String} (v : α)
    (h : k' ≠ k) : dictGet (dictSet d k' v) k = dictGet d k := by
  induction d with
  | nil => simp [dictSet, dictGet, h]
  | cons e rest ih =>
    by_cases he : e.1 = k'
    · simp [dictSet, dictGet, he, h, fun hk => h (he ▸ hk : k' = k)]
    · simp only [dictSet, if_neg he]
      by_cases hek : e.1 = k
      · simp [dictGet, hek]
      · simpa [dictGet, hek] using ih

theorem dictKeys_cons {α : Type} (e : String × α) (rest : List (String × α)) :
    dictKeys (e :: rest) = e.1 :: dictKeys rest := rfl

theorem mem_dictKeys_cons {α : Type} {e : String × α} {rest : List (String × α)} {k : String} :
    k ∈ dictKeys (e :: rest) ↔ e.1 = k ∨ k ∈ dictKeys rest := by
  rw [dictKeys_cons, List.mem_cons]
  exact or_congr_left eq_comm

theorem mem_dictKeys_dictSet_self {α : Type} (d : List (String × α)) (k : String) (v : α) :
    k ∈ dictKeys (dictSet d k v) := by
  induction d with
  | nil => exact List.mem_singleton.mpr rfl
  | cons e rest ih =>
    by_cases h : e.1 = k
    · rw [dictSet, if_pos h]
      exact mem_dictKeys_cons.mpr (Or.inl rfl)
    · rw [dictSet, if_neg h]
      exact mem_dictKeys_cons.mpr (Or.inr ih)

theorem mem_dictKeys_dictSet_of_mem {α : Type} (d : List (String × α)) {k : String}
    (k' : String) (v : α) (h : k ∈ dictKeys d) : k ∈ dictKeys (dictSet d k' v) := by
  induction d with
  | nil => simp [dictKeys] at h
  | cons e rest ih =>
    rcases mem_dictKeys_cons.mp h with h1 | h1
    · by_cases he : e.1 = k'
      · rw [dictSet, if_pos he]
        exact mem_dictKeys_cons.mpr (Or.inl (he ▸ h1))
      · rw [dictSet, if_neg he]
        exact mem_dictKeys_cons.mpr (Or.inl h1)
    · by_cases he : e.1 = k'
      · rw [dictSet, if_pos he]
        exact mem_dictKeys_cons.mpr (Or.inr h1)
      · rw [dictSet, if_neg he]
        exact mem_dictKeys_cons.mpr (Or.inr (ih h1))

theorem dictSet_append_of_not_mem {α : Type} (d₀ t : List (String × α)) {k : String} (v : α)
    (h : k ∉ dictKeys d₀) : dictSet (d₀ ++ t) k v = d₀ ++ dictSet t k v := by
  induction d₀ with
  | nil => simp
  | cons e rest ih =>
    have h1 : ¬(e.1 = k) := fun he => h (mem_dictKeys_cons.mpr (Or.inl he))
    have h2 : k ∉ dictKeys rest := fun hm => h (mem_dictKeys_cons.mpr (Or.inr hm))
    calc dictSet (e :: rest ++ t) k v
        = e :: dictSet (rest ++ t) k v := by rw [List.cons_append, dictSet, if_neg h1]
      _ = e :: (rest ++ dictSet t k v) := by rw [ih h2]

theorem dictGet_isSome_of_mem_keys {α : Type} (d : List (String × α)) {k : String}
    (h : k ∈ dictKeys d) : (dictGet d k).isSome := by
  induction d with
  | nil => simp [dictKeys] at h
  | cons e rest ih =>
    by_cases he : e.1 = k
    · simp [dictGet, he]
    · rcases mem_dictKeys_cons.mp h with h1 | h1
      · exact absurd h1 he
      · simpa [dictGet, he] using ih h1

/-! ### File-discovery lemmas -/

theorem get_children_of_none (fs : FS) (path : String) (h : fs path = none) :
    get_children fs path = [] := by
  simp [get_children, h]

theorem get_children_of_some (fs : FS) (path : String) (l : List String)
    (h : fs path = some l) :
    get_children fs path = List.insertionSort strRel (childListing path l) := by
  simp [get_children, h, childListing]

theorem get_children_perm (fs : FS) (path : String) (l : List String)
    (h : fs path = some l) : (get_children fs path).Perm (childListing path l) := by
  rw [get_children_of_some fs path l h]
  exact List.perm_insertionSort strRel _

theorem get_children_sorted (fs : FS) (path : String) :
    List.Sorted strRel (get_children fs path) := by
  unfold get_children
  cases fs path with
  | none => exact List.sorted_nil
  | some l => exact List.sorted_insertionSort strRel _

theorem string_append_left_cancel {p m n : String} (h : p ++ m = p ++ n) : m = n := by
  have hd : (p ++ m).data = (p ++ n).data := by rw [h]
  simp only [String.data_append] at hd
  exact String.ext (List.append_cancel_left hd)

theorem get_children_no_private (fs : FS) (path : String) (l : List String) (n : String)
    (hfs : fs path = some l) (hn : strStartsWith n "_" = true) :
    (path ++ "/" ++ n) ∉ get_children fs path := by
  intro hmem
  have hmem2 : (path ++ "/" ++ n) ∈ childListing path l :=
    (get_children_perm fs path l hfs).mem_iff.mp hmem
  rcases List.mem_map.mp hmem2 with ⟨m, hm, hemq⟩
  have hme : m = n := string_append_left_cancel (by
    have : (path ++ "/") ++ m = (path ++ "/") ++ n := by
      simpa [String.append_assoc] using hemq
    exact this)
  have := (List.mem_filter.mp hm).2
  rw [hme] at this
  simp [hn] at this

/-! ### Repository-selection lemmas -/

theorem selectGo_ok (repos : Repos) :
    ∀ ns : List String, (∀ n ∈ ns, n = "content" ∨ n = "other") →
      ∀ acc, ∃ rs, selectGo repos ns acc = Except.ok rs
  | [], _, acc => ⟨acc, rfl⟩
  | n :: ns, h, acc => by
    rcases h n (List.mem_cons_self n ns) with hn | hn <;> subst hn
    · simpa [selectGo, getattr_repos] using
        selectGo_ok repos ns (fun m hm => h m (List.mem_cons_of_mem _ hm)) _
    · simpa [selectGo, getattr_repos] using
        selectGo_ok repos ns (fun m hm => h m (List.mem_cons_of_mem _ hm)) _

theorem string_append_right_cancel {m n s : String} (h : m ++ s = n ++ s) : m = n := by
  have hd : (m ++ s).data = (n ++ s).data := by rw [h]
  simp only [String.data_append] at hd
  exact String.ext (List.append_cancel_right hd)

theorem getattr_repos_none (repos : Repos) {n : String}
    (h1 : n ≠ "content") (h2 : n ≠ "other") :
    getattr_repos repos (n ++ "_repos") = none := by
  have g1 : ¬(n ++ "_repos" = "content_repos") := fun hc =>
    h1 (string_append_right_cancel (s := "_repos") (by rw [hc]; rfl))
  have g2 : ¬(n ++ "_repos" = "other_repos") := fun hc =>
    h2 (string_append_right_cancel (s := "_repos") (by rw [hc]; rfl))
  simp [getattr_repos, g1, g2]

theorem selectGo_err (repos : Repos) :
    ∀ ns : List String, ∀ n ∈ ns, n ≠ "content" → n ≠ "other" →
      ∀ acc, ∃ e, selectGo repos ns acc = Except.error e := by
  intro ns
  induction ns with
  | nil => intro n h; simp at h
  | cons m ms ih =>
    intro n hmem h1 h2 acc
    rcases List.mem_cons.mp hmem with he | he
    · subst he
      rw [selectGo, getattr_repos_none repos h1 h2]
      exact ⟨_, rfl⟩
    · rw [selectGo]
      cases hga : getattr_repos repos (m ++ "_repos") with
      | none => exact ⟨_, rfl⟩
      | some rs => exact ih n he h1 h2 _

/-! ### Content-loop lemmas -/

theorem contentInnerGo_ok (fs : FS) (template repoName : String) :
    ∀ cts : List String, (∀ ct ∈ cts, (DISPLAY_NAMES ct).isSome) →
      ∀ inner, ∃ r, contentInnerGo fs template repoName cts inner = Except.ok r
  | [], _, inner => ⟨inner, rfl⟩
  | ct :: cts, h, inner => by
    have hct := h ct (List.mem_cons_self ct cts)
    have htail := fun m hm => h m (List.mem_cons_of_mem _ hm)
    simp only [contentInnerGo]
    by_cases hrest : (popQuickstart (get_children fs (formatRepoContent template repoName ct))).2 = []
    · rw [if_pos hrest]
      exact contentInnerGo_ok fs template repoName cts htail _
    · rw [if_neg hrest]
      cases hd : DISPLAY_NAMES ct with
      | none => rw [hd] at hct; simp at hct
      | some label => exact contentInnerGo_ok fs template repoName cts htail _

/-- Processing further content types never disturbs an already-built
prefix of the inner dict whose keys cannot be written again. -/
theorem contentInnerGo_extend (fs : FS) (template repoName : String) :
    ∀ (cts : List String) (d₀ tail r : List (String × QNav)),
      (∀ ct ∈ cts, ¬(lowerStr ct = "tutorials")) →
      (∀ ct ∈ cts, ∀ lbl, DISPLAY_NAMES ct = some lbl → lbl ∉ dictKeys d₀) →
      contentInnerGo fs template repoName cts (d₀ ++ tail) = Except.ok r →
      ∃ tail', r = d₀ ++ tail'
  | [], d₀, tail, r, _, _, heq => ⟨tail, by injection heq with h; exact h.symm⟩
  | ct :: cts, d₀, tail, r, h1, h2, heq => by
    have hct1 := h1 ct (List.mem_cons_self ct cts)
    have h1t := fun m hm => h1 m (List.mem_cons_of_mem _ hm)
    have h2t := fun m hm => h2 m (List.mem_cons_of_mem _ hm)
    simp only [contentInnerGo] at heq
    rw [if_neg hct1] at heq
    by_cases hrest : (popQuickstart (get_children fs (formatRepoContent template repoName ct))).2 = []
    · rw [if_pos hrest] at heq
      exact contentInnerGo_extend fs template repoName cts d₀ tail r h1t h2t heq
    · rw [if_neg hrest] at heq
      cases hd : DISPLAY_NAMES ct with
      | none =>
        rw [hd] at heq
        exact absurd (heq :
          (Except.error ("KeyError: " ++ ct) : Except String (List (String × QNav))) =
            Except.ok r) (by simp)
      | some label =>
        rw [hd] at heq
        have heq2 : contentInnerGo fs template repoName cts (dictSet (d₀ ++ tail) label
            (QNav.files (popQuickstart (get_children fs
              (formatRepoContent template repoName ct))).2)) = Except.ok r := heq
        rw [dictSet_append_of_not_mem d₀ tail _
          (h2 ct (List.mem_cons_self ct cts) _ hd)] at heq2
        exact contentInnerGo_extend fs template repoName cts d₀ _ r h1t h2t heq2

/-! ### Non-empty content branches: the invariant kept by the loops -/

theorem innerOk_nil : innerOk [] := by intro e he; simp at he

theorem navOk_nil : navOk [] := by intro e he; simp at he

theorem innerOk_dictSet {d : List (String × QNav)} {k : String} {v : QNav}
    (hd : innerOk d) (hv : ∀ l, v = QNav.files l → l ≠ []) : innerOk (dictSet d k v) := by
  induction d with
  | nil =>
    intro e he l hel
    rcases List.mem_singleton.mp he with rfl
    exact hv l hel
  | cons x rest ih =>
    have hrest : innerOk rest := fun e he => hd e (List.mem_cons_of_mem _ he)
    by_cases hx : x.1 = k
    · rw [dictSet, if_pos hx]
      intro e he l hel
      rcases List.mem_cons.mp he with rfl | he2
      · exact hv l hel
      · exact hrest e he2 l hel
    · rw [dictSet, if_neg hx]
      intro e he l hel
      rcases List.mem_cons.mp he with he1 | he2
      · subst he1
        exact hd (x.1, x.2) (by simp) l hel
      · exact ih hrest e he2 l hel

theorem navOk_dictSet {d : List (String × List (String × QNav))} {k : String}
    {v : List (String × QNav)} (hd : navOk d) (hv : innerOk v) : navOk (dictSet d k v) := by
  induction d with
  | nil =>
    intro e he
    rcases List.mem_singleton.mp he with rfl
    exact hv
  | cons x rest ih =>
    have hrest : navOk rest := fun e he => hd e (List.mem_cons_of_mem _ he)
    by_cases hx : x.1 = k
    · rw [dictSet, if_pos hx]
      intro e he
      rcases List.mem_cons.mp he with rfl | he2
      · exact hv
      · exact hrest e he2
    · rw [dictSet, if_neg hx]
      intro e he
      rcases List.mem_cons.mp he with he1 | he2
      · subst he1
        exact hd (x.1, x.2) (by simp)
      · exact ih hrest e he2

theorem contentInnerGo_innerOk (fs : FS) (template repoName : String) :
    ∀ (cts : List String) (inner r : List (String × QNav)),
      innerOk inner → contentInnerGo fs template repoName cts inner = Except.ok r →
      innerOk r
  | [], inner, r, hok, heq => by injection heq with h; exact h ▸ hok
  | ct :: cts, inner, r, hok, heq => by
    simp only [contentInnerGo] at heq
    have hok1 :
        innerOk (if lowerStr ct = "tutorials" then
          match (popQuickstart (get_children fs (formatRepoContent template repoName ct))).1 with
          | some f => dictSet inner "Quickstart" (QNav.single f)
          | none => inner
        else inner) := by
      split
      · split
        · exact innerOk_dictSet hok (by intro l hl; simp at hl)
        · exact hok
      · exact hok
    by_cases hrest : (popQuickstart (get_children fs (formatRepoContent template repoName ct))).2 = []
    · rw [if_pos hrest] at heq
      exact contentInnerGo_innerOk fs template repoName cts _ r hok1 heq
    · rw [if_neg hrest] at heq
      cases hd : DISPLAY_NAMES ct with
      | none =>
        rw [hd] at heq
        exact absurd (heq :
          (Except.error ("KeyError: " ++ ct) : Except String (List (String × QNav))) =
            Except.ok r) (by simp)
      | some label =>
        rw [hd] at heq
        have heq2 : contentInnerGo fs template repoName cts (dictSet _ label
            (QNav.files (popQuickstart (get_children fs
              (formatRepoContent template repoName ct))).2)) = Except.ok r := heq
        refine contentInnerGo_innerOk fs template repoName cts _ r ?_ heq2
        exact innerOk_dictSet hok1 (by intro l hl hnil; injection hl with h2; exact hrest (h2.trans hnil))

/-! ### Repository-loop lemmas (expanding branch) -/

theorem expandedGo_ok (fs : FS) (template : String) (cts : List String)
    (hcts : ∀ ct ∈ cts, (DISPLAY_NAMES ct).isSome) :
    ∀ (rs : List Repo) (nav : List (String × List (String × QNav))),
      ∃ r, expandedGo fs template cts rs nav = Except.ok r
  | [], nav => ⟨nav, rfl⟩
  | repo :: rs, nav => by
    rcases contentInnerGo_ok fs template repo.name cts hcts [] with ⟨inner, hinner⟩
    rw [expandedGo, contentInner, hinner]
    exact expandedGo_ok fs template cts hcts rs _

theorem expandedGo_keys_mono (fs : FS) (template : String) (cts : List String) :
    ∀ (rs : List Repo) (nav r : List (String × List (String × QNav))) (k : String),
      k ∈ dictKeys nav → expandedGo fs template cts rs nav = Except.ok r →
      k ∈ dictKeys r
  | [], nav, r, k, hk, heq => by injection heq with h; exact h ▸ hk
  | repo :: rs, nav, r, k, hk, heq => by
    rw [expandedGo] at heq
    cases hin : contentInner fs template repo.name cts with
    | error e => rw [hin] at heq; exact absurd heq (by simp)
    | ok inner =>
      rw [hin] at heq
      exact expandedGo_keys_mono fs template cts rs _ r k
        (mem_dictKeys_dictSet_of_mem nav _ _ hk) heq

theorem expandedGo_keys (fs : FS) (template : String) (cts : List String) :
    ∀ (rs : List Repo) (nav r : List (String × List (String × QNav))),
      expandedGo fs template cts rs nav = Except.ok r →
      ∀ repo ∈ rs, repo.title ∈ dictKeys r
  | [], _, _, _, repo, hmem => by simp at hmem
  | rp :: rs, nav, r, heq, repo, hmem => by
    rw [expandedGo] at heq
    cases hin : contentInner fs template rp.name cts with
    | error e => rw [hin] at heq; exact absurd heq (by simp)
    | ok inner =>
      rw [hin] at heq
      rcases List.mem_cons.mp hmem with rfl | hmem2
      · exact expandedGo_keys_mono fs template cts rs _ r repo.title
          (mem_dictKeys_dictSet_self nav _ _) heq
      · exact expandedGo_keys fs template cts rs _ r heq repo hmem2

theorem expandedGo_navOk (fs : FS) (template : String) (cts : List String) :
    ∀ (rs : List Repo) (nav r : List (String × List (String × QNav))),
      navOk nav → expandedGo fs template cts rs nav = Except.ok r → navOk r
  | [], nav, r, hok, heq => by injection heq with h; exact h ▸ hok
  | rp :: rs, nav, r, hok, heq => by
    rw [expandedGo] at heq
    cases hin : contentInner fs template rp.name cts with
    | error e => rw [hin] at heq; exact absurd heq (by simp)
    | ok inner =>
      rw [hin] at heq
      have hinner : innerOk inner :=
        contentInnerGo_innerOk fs template rp.name cts [] inner innerOk_nil hin
      exact expandedGo_navOk fs template cts rs _ r (navOk_dictSet hok hinner) heq

theorem expandedGo_preserves_get (fs : FS) (template : String) (cts : List String) :
    ∀ (rs : List Repo) (nav r : List (String × List (String × QNav))) (k : String),
      (∀ repo ∈ rs, repo.title ≠ k) →
      expandedGo fs template cts rs nav = Except.ok r →
      dictGet r k = dictGet nav k
  | [], nav, r, k, _, heq => by injection heq with h; exact h ▸ rfl
  | rp :: rs, nav, r, k, hne, heq => by
    rw [expandedGo] at heq
    cases hin : contentInner fs template rp.name cts with
    | error e => rw [hin] at heq; exact absurd heq (by simp)
    | ok inner =>
      rw [hin] at heq
      rw [expandedGo_preserves_get fs template cts rs _ r k
        (fun m hm => hne m (List.mem_cons_of_mem _ hm)) heq]
      exact dictGet_dictSet_ne nav inner (hne rp (List.mem_cons_self _ _))

theorem expandedGo_lookup (fs : FS) (template : String) (cts : List String) :
    ∀ (rs : List Repo) (nav r : List (String × List (String × QNav))) (repo : Repo)
      (inner : List (String × QNav)),
      List.Pairwise (fun a b => a.title ≠ b.title) rs → repo ∈ rs →
      contentInner fs template repo.name cts = Except.ok inner →
      expandedGo fs template cts rs nav = Except.ok r →
      dictGet r repo.title = some inner
  | [], _, _, repo, _, _, hmem, _, _ => by simp at hmem
  | rp :: rs, nav, r, repo, inner, hpw, hmem, hin, heq => by
    rw [expandedGo] at heq
    rcases List.mem_cons.mp hmem with rfl | hmem2
    · rw [hin] at heq
      rw [expandedGo_preserves_get fs template cts rs _ r repo.title
        (fun m hm => (List.pairwise_cons.mp hpw).1 m hm |>.symm) heq]
      exact dictGet_dictSet_self nav _ inner
    · cases hin2 : contentInner fs template rp.name cts with
      | error e => rw [hin2] at heq; exact absurd heq (by simp)
      | ok innerRp =>
        rw [hin2] at heq
        exact expandedGo_lookup fs template cts rs _ r repo inner
          (List.pairwise_cons.mp hpw).2 hmem2 hin heq

/-! ### Reference-loop lemmas -/

theorem refGo_preserves_get (fs : FS) :
    ∀ (rs : List Repo) (nav : List (String × List (String × RefVal))) (k : String),
      (∀ repo ∈ rs, repo.title ≠ k) →
      dictGet (refGo fs rs nav) k = dictGet nav k
  | [], _, _, _ => rfl
  | rp :: rs, nav, k, hne => by
    rw [refGo, refGo_preserves_get fs rs _ k (fun m hm => hne m (List.mem_cons_of_mem _ hm))]
    exact dictGet_dictSet_ne nav _ (hne rp (List.mem_cons_self _ _))

theorem refGo_lookup (fs : FS) :
    ∀ (rs : List Repo) (nav : List (String × List (String × RefVal))) (repo : Repo),
      List.Pairwise (fun a b => a.title ≠ b.title) rs → repo ∈ rs →
      dictGet (refGo fs rs nav) repo.title = some (refSections fs repo)
  | [], _, repo, _, hmem => by simp at hmem
  | rp :: rs, nav, repo, hpw, hmem => by
    rcases List.mem_cons.mp hmem with rfl | hmem2
    · rw [refGo, refGo_preserves_get fs rs _ repo.title
        (fun m hm => (List.pairwise_cons.mp hpw).1 m hm |>.symm)]
      exact dictGet_dictSet_self nav _ _
    · rw [refGo]
      exact refGo_lookup fs rs _ repo (List.pairwise_cons.mp hpw).2 hmem2

/-! ### `repo_grouping`-level lemmas -/

theorem DISPLAY_NAMES_default :
    ∀ ct ∈ resolved_content_types none, (DISPLAY_NAMES ct).isSome := by decide

theorem select_repos_content (repos : Repos) :
    select_repos repos (some ["content"]) = Except.ok repos.content_repos := rfl

theorem select_repos_other (repos : Repos) :
    select_repos repos (some ["other"]) = Except.ok repos.other_repos := rfl

theorem repo_grouping_eq_error (fs : FS) (repos : Repos) (template : String)
    (rt cts : Option (List String)) (e : String)
    (hsel : select_repos repos rt = Except.error e) :
    repo_grouping fs repos template rt cts = Except.error e := by
  simp only [repo_grouping, hsel]

theorem repo_grouping_eq_simple (fs : FS) (repos : Repos) (template : String)
    (rt cts : Option (List String)) (rs : List Repo)
    (hT : hasContentField template = false)
    (hsel : select_repos repos rt = Except.ok rs) :
    repo_grouping fs repos template rt cts =
      Except.ok (GroupResult.simple (simpleGo fs template rs [])) := by
  simp only [repo_grouping, hsel, hT, Bool.false_eq_true, if_false]

theorem repo_grouping_eq_expanded (fs : FS) (repos : Repos) (template : String)
    (rt cts : Option (List String)) (rs : List Repo)
    (nav : List (String × List (String × QNav)))
    (hT : hasContentField template = true)
    (hsel : select_repos repos rt = Except.ok rs)
    (hexp : expandedGo fs template (resolved_content_types cts) rs [] = Except.ok nav) :
    repo_grouping fs repos template rt cts = Except.ok (GroupResult.expanded nav) := by
  simp only [repo_grouping, hsel, hT, if_true, hexp]

/-- With the default content types, the expanding branch cannot fail. -/
theorem repo_grouping_default_expanded_ok (fs : FS) (repos : Repos) (template : String)
    (rt : Option (List String)) (rs : List Repo)
    (hT : hasContentField template = true)
    (hsel : select_repos repos rt = Except.ok rs) :
    ∃ nav, repo_grouping fs repos template rt none = Except.ok (GroupResult.expanded nav) := by
  rcases expandedGo_ok fs template (resolved_content_types none) DISPLAY_NAMES_default rs []
    with ⟨nav, hexp⟩
  exact ⟨nav, repo_grouping_eq_expanded fs repos template rt none rs nav hT hsel hexp⟩

/-- Without `{content}` in the template, supplied content types are
never consulted: the result is the same as passing none. -/
theorem repo_grouping_content_types_ignored (fs : FS) (repos : Repos) (template : String)
    (rt : Option (List String)) (cts : List String)
    (hT : hasContentField template = false) :
    repo_grouping fs repos template rt (some cts) =
      repo_grouping fs repos template rt none := by
  cases hsel : select_repos repos rt with
  | error e =>
    rw [repo_grouping_eq_error fs repos template rt (some cts) e hsel,
      repo_grouping_eq_error fs repos template rt none e hsel]
  | ok rs =>
    rw [repo_grouping_eq_simple fs repos template rt (some cts) rs hT hsel,
      repo_grouping_eq_simple fs repos template rt none rs hT hsel]

/-- Passing no content types is the same as passing the default list. -/
theorem repo_grouping_none_eq_default (fs : FS) (repos : Repos) (template : String)
    (rt : Option (List String)) :
    repo_grouping fs repos template rt none =
      repo_grouping fs repos template rt (some ["tutorials", "guides", "learn"]) := rfl

/-! ### `grouped_by_persona` support -/

theorem grouped_by_persona_eq (fs : FS) (repos : Repos) (u1 u2 a1 a2 d1 d2 : GroupResult)
    (h1 : repo_grouping fs repos "{repo}/docs/user/{content}" (some ["content"]) none = Except.ok u1)
    (h2 : repo_grouping fs repos "{repo}/docs/user/{content}" (some ["other"]) none = Except.ok u2)
    (h3 : repo_grouping fs repos "{repo}/docs/admin/{content}" (some ["content"]) none = Except.ok a1)
    (h4 : repo_grouping fs repos "{repo}/docs/admin/{content}" (some ["other"]) none = Except.ok a2)
    (h5 : repo_grouping fs repos "{repo}/docs/dev/{content}" (some ["content"]) none = Except.ok d1)
    (h6 : repo_grouping fs repos "{repo}/docs/dev/{content}" (some ["other"]) none = Except.ok d2) :
    grouped_by_persona fs repos = Except.ok (Nav.items
      [Nav.dict [("Home", Nav.str "index.md")],
       Nav.dict [("User Manual", personaSection fs "usage/index.md" "user" u1 u2)],
       Nav.dict [("Admin Manual", personaSection fs "admin/index.md" "admin" a1 a2)],
       Nav.dict [("Development", personaSection fs "development/index.md" "dev" d1 d2)],
       Nav.dict [("Reference", Nav.items
         [Nav.dict [("Overview", Nav.str (section_file "reference/index.md"))],
          Nav.dict [("Repository Map", Nav.str (section_file "reference/01-repository-map.md"))],
          Nav.dict [("Glossary", Nav.str (section_file "reference/02-glossary.md"))],
          Nav.dict [("Repositories", navOfRef (repo_reference_grouping fs repos))]])],
       Nav.dict [("Help", Nav.items
         [Nav.dict [("Overview", Nav.str (section_file "help/index.md"))],
          Nav.dict [("Bugs, Feature and Backport Requests",
            Nav.str (section_file "help/bugs-features.md"))]])]]) := by
  unfold grouped_by_persona
  rw [h1, h2, h3, h4, h5, h6]
  rfl

theorem grouped_by_persona_ok (fs : FS) (repos : Repos) :
    ∃ u1 u2 a1 a2 d1 d2,
      repo_grouping fs repos "{repo}/docs/user/{content}" (some ["content"]) none =
        Except.ok (GroupResult.expanded u1) ∧
      repo_grouping fs repos "{repo}/docs/user/{content}" (some ["other"]) none =
        Except.ok (GroupResult.expanded u2) ∧
      repo_grouping fs repos "{repo}/docs/admin/{content}" (some ["content"]) none =
        Except.ok (GroupResult.expanded a1) ∧
      repo_grouping fs repos "{repo}/docs/admin/{content}" (some ["other"]) none =
        Except.ok (GroupResult.expanded a2) ∧
      repo_grouping fs repos "{repo}/docs/dev/{content}" (some ["content"]) none =
        Except.ok (GroupResult.expanded d1) ∧
      repo_grouping fs repos "{repo}/docs/dev/{content}" (some ["other"]) none =
        Except.ok (GroupResult.expanded d2) := by
  rcases repo_grouping_default_expanded_ok fs repos "{repo}/docs/user/{content}"
    (some ["content"]) repos.content_repos rfl (select_repos_content repos) with ⟨u1, hu1⟩
  rcases repo_grouping_default_expanded_ok fs repos "{repo}/docs/user/{content}"
    (some ["other"]) repos.other_repos rfl (select_repos_other repos) with ⟨u2, hu2⟩
  rcases repo_grouping_default_expanded_ok fs repos "{repo}/docs/admin/{content}"
    (some ["content"]) repos.content_repos rfl (select_repos_content repos) with ⟨a1, ha1⟩
  rcases repo_grouping_default_expanded_ok fs repos "{repo}/docs/admin/{content}"
    (some ["other"]) repos.other_repos rfl (select_repos_other repos) with ⟨a2, ha2⟩
  rcases repo_grouping_default_expanded_ok fs repos "{repo}/docs/dev/{content}"
    (some ["content"]) repos.content_repos rfl (select_repos_content repos) with ⟨d1, hd1⟩
  rcases repo_grouping_default_expanded_ok fs repos "{repo}/docs/dev/{content}"
    (some ["other"]) repos.other_repos rfl (select_repos_other repos) with ⟨d2, hd2⟩
  exact ⟨u1, u2, a1, a2, d1, d2, hu1, hu2, ha1, ha2, hd1, hd2⟩

/-- Looking up the Getting-Started subtree of a persona section gives
the three hard-coded `pulpcore` discovery results. -/
theorem personaSection_getting_started (fs : FS) (overview persona : String)
    (plugins extras : GroupResult) :
    sectionGet (personaSection fs overview persona plugins extras) "Getting Started" =
      some (Nav.dict
        [("Tutorial", navOfFiles (get_children fs ("pulpcore/docs/" ++ persona ++ "/tutorials"))),
         ("Learn", navOfFiles (get_children fs ("pulpcore/docs/" ++ persona ++ "/learn"))),
         ("How-to", navOfFiles (get_children fs ("pulpcore/docs/" ++ persona ++ "/guides")))]) := rfl

/-- `"{repo}/docs/reference".format(repo=name)` is `name ++
"/docs/reference"` (the replacement value is never rescanned). -/
theorem strReplace_repo_reference (name : String) :
    strReplace "{repo}/docs/reference" "{repo}" name = name ++ "/docs/reference" := by
  cases name
  rfl

/-- Inversion: an expanded `repo_grouping` success came from the
repository loop. -/
theorem repo_grouping_expanded_inv (fs : FS) (repos : Repos) (template : String)
    (rt cts : Option (List String)) (rs : List Repo)
    (nav : List (String × List (String × QNav)))
    (hT : hasContentField template = true)
    (hsel : select_repos repos rt = Except.ok rs)
    (hgr : repo_grouping fs repos template rt cts = Except.ok (GroupResult.expanded nav)) :
    expandedGo fs template (resolved_content_types cts) rs [] = Except.ok nav := by
  cases hE : expandedGo fs template (resolved_content_types cts) rs [] with
  | error e =>
    have herr : repo_grouping fs repos template rt cts = Except.error e := by
      simp only [repo_grouping, hsel, hT, if_true, hE]
    rw [herr] at hgr
    exact absurd hgr (by simp)
  | ok nav' =>
    have hok := repo_grouping_eq_expanded fs repos template rt cts rs nav' hT hsel hE
    rw [hok] at hgr
    injection hgr with h
    injection h with h2
    rw [h2]

/-- Unfolding the `tutorials` iteration of the content loop when a
quickstart file is found and other tutorials remain. -/
theorem contentInnerGo_tutorials_step (fs : FS) (template repoName : String)
    (cts : List String) (inner : List (String × QNav)) (q : String) (rest : List String)
    (hpop : popQuickstart (get_children fs (formatRepoContent template repoName "tutorials")) =
      (some q, rest))
    (hne : rest ≠ []) :
    contentInnerGo fs template repoName ("tutorials" :: cts) inner =
      contentInnerGo fs template repoName cts
        (dictSet (dictSet inner "Quickstart" (QNav.single q)) "Tutorials" (QNav.files rest)) := by
  simp only [contentInnerGo, hpop]
  rw [if_pos (show lowerStr "tutorials" = "tutorials" from rfl), if_neg hne]
  rfl

/-! ## Claims -/

/-- C1 counterexample: the content repo has zero files anywhere
(`emptyFS`), yet content-type-expanding grouping still lists it — as a
key bound to an empty mapping (line 272 runs `_nav[repo.title] = {}`
unconditionally) — refuting the claim that such a repository is
entirely absent from the result. -/
theorem claim_C1_counterexample :
    get_children emptyFS "pkg/docs/admin/guides" = [] ∧
    repo_grouping emptyFS reposFix "{repo}/docs/admin/{content}"
      (some ["content"]) (some ["guides"]) =
      Except.ok (GroupResult.expanded [("Pkg A", [])]) :=
  ⟨rfl, rfl⟩

/-- C1 amended: in content-type-expanding grouping a content type's
branch is included only if its file list is non-empty after quickstart
extraction (`navOk`), but every selected repository appears as a key of
the result — a repository with zero files is present with an empty
mapping, not absent. -/
theorem claim_C1_amended (fs : FS) (repos : Repos) (template : String)
    (rt cts : Option (List String)) (rs : List Repo)
    (nav : List (String × List (String × QNav)))
    (hT : hasContentField template = true)
    (hsel : select_repos repos rt = Except.ok rs)
    (hgr : repo_grouping fs repos template rt cts = Except.ok (GroupResult.expanded nav)) :
    (∀ repo ∈ rs, (dictGet nav repo.title).isSome = true) ∧ navOk nav := by
  have hexp := repo_grouping_expanded_inv fs repos template rt cts rs nav hT hsel hgr
  constructor
  · intro repo hmem
    exact dictGet_isSome_of_mem_keys nav
      (expandedGo_keys fs template (resolved_content_types cts) rs [] nav hexp repo hmem)
  · exact expandedGo_navOk fs template (resolved_content_types cts) rs [] nav navOk_nil hexp

/-- C1 amended witness: the fixture grouping over admin guides. -/
theorem claim_C1_amended_witness :
    (dictGet [("Pkg A", [("How-to", QNav.files ["pkg/docs/admin/guides/a.md"])])]
      "Pkg A").isSome = true ∧
    navOk [("Pkg A", [("How-to", QNav.files ["pkg/docs/admin/guides/a.md"])])] := by
  have h := claim_C1_amended fsFix reposFix "{repo}/docs/admin/{content}"
    (some ["content"]) (some ["guides"]) reposFix.content_repos
    [("Pkg A", [("How-to", QNav.files ["pkg/docs/admin/guides/a.md"])])] rfl rfl rfl
  exact ⟨h.1 repoPkgA (by decide), h.2⟩

/-- C2: whenever the discovered tutorials list of a selected repository
contains a quickstart file (case/hyphen tolerant), the expanding
grouping (default content types) removes that file, stores it under a
`Quickstart` key placed immediately before the `Tutorials` key, and
`Tutorials` holds exactly the remaining files in their discovered
order; concrete pop behaviour for `quickstart.md`, `quick-start.md` and
`QuickStart.MD` included. -/
theorem claim_C2_quickstart_extraction (fs : FS) (repos : Repos) (template : String)
    (rt : Option (List String)) (rs : List Repo) (repo : Repo)
    (q : String) (rest : List String)
    (hT : hasContentField template = true)
    (hsel : select_repos repos rt = Except.ok rs)
    (hpw : List.Pairwise (fun a b => a.title ≠ b.title) rs)
    (hmem : repo ∈ rs)
    (hpop : popQuickstart (get_children fs (formatRepoContent template repo.name "tutorials")) =
      (some q, rest))
    (hne : rest ≠ []) :
    (∃ nav tail,
      repo_grouping fs repos template rt none = Except.ok (GroupResult.expanded nav) ∧
      dictGet nav repo.title =
        some (("Quickstart", QNav.single q) :: ("Tutorials", QNav.files rest) :: tail)) ∧
    popQuickstart ["intro.md", "quickstart.md", "advanced.md"] =
      (some "quickstart.md", ["intro.md", "advanced.md"]) ∧
    popQuickstart ["intro.md", "quick-start.md", "advanced.md"] =
      (some "quick-start.md", ["intro.md", "advanced.md"]) ∧
    popQuickstart ["intro.md", "QuickStart.MD", "advanced.md"] =
      (some "QuickStart.MD", ["intro.md", "advanced.md"]) := by
  refine ⟨?_, rfl, rfl, rfl⟩
  have hd0 : contentInner fs template repo.name (resolved_content_types none) =
      contentInnerGo fs template repo.name ["guides", "learn"]
        [("Quickstart", QNav.single q), ("Tutorials", QNav.files rest)] := by
    show contentInnerGo fs template repo.name ("tutorials" :: ["guides", "learn"]) [] = _
    rw [contentInnerGo_tutorials_step fs template repo.name ["guides", "learn"] [] q rest hpop hne]
    rfl
  rcases contentInnerGo_ok fs template repo.name ["guides", "learn"] (by decide)
      [("Quickstart", QNav.single q), ("Tutorials", QNav.files rest)] with ⟨innerR, hinner⟩
  have hinner2 : contentInner fs template repo.name (resolved_content_types none) =
      Except.ok innerR := by rw [hd0]; exact hinner
  rcases contentInnerGo_extend fs template repo.name ["guides", "learn"]
      [("Quickstart", QNav.single q), ("Tutorials", QNav.files rest)] [] innerR
      (by decide)
      (by
        intro ct hct lbl hlbl
        rcases (by simpa using hct : ct = "guides" ∨ ct = "learn") with h | h
        · subst h
          have h3 : some "How-to" = some lbl := hlbl
          injection h3 with h2
          subst h2
          exact (by decide : ("How-to" : String) ∉ (["Quickstart", "Tutorials"] : List String))
        · subst h
          have h3 : some "Learn" = some lbl := hlbl
          injection h3 with h2
          subst h2
          exact (by decide : ("Learn" : String) ∉ (["Quickstart", "Tutorials"] : List String)))
      (by rw [List.append_nil]; exact hinner) with ⟨tail, htail⟩
  rcases expandedGo_ok fs template (resolved_content_types none) DISPLAY_NAMES_default rs []
    with ⟨nav, hexp⟩
  refine ⟨nav, tail,
    repo_grouping_eq_expanded fs repos template rt none rs nav hT hsel hexp, ?_⟩
  have hlook := expandedGo_lookup fs template (resolved_content_types none) rs [] nav repo
    innerR hpw hmem hinner2 hexp
  rw [hlook, htail]
  rfl

/-- C2 witness: the fixture admin tutorials of `pkg`. -/
theorem claim_C2_quickstart_extraction_witness :
    ∃ nav tail,
      repo_grouping fsFix reposFix "{repo}/docs/admin/{content}" (some ["content"]) none =
        Except.ok (GroupResult.expanded nav) ∧
      dictGet nav "Pkg A" =
        some (("Quickstart", QNav.single "pkg/docs/admin/tutorials/quickstart.md") ::
          ("Tutorials", QNav.files ["pkg/docs/admin/tutorials/advanced.md",
            "pkg/docs/admin/tutorials/intro.md"]) :: tail) :=
  (claim_C2_quickstart_extraction fsFix reposFix "{repo}/docs/admin/{content}"
    (some ["content"]) reposFix.content_repos repoPkgA
    "pkg/docs/admin/tutorials/quickstart.md"
    ["pkg/docs/admin/tutorials/advanced.md", "pkg/docs/admin/tutorials/intro.md"]
    rfl rfl (by decide) (by decide) rfl (by decide)).1

/-- C3 is a code bug: `_pop_quickstart_from` is invoked for every
content type (line 283 sits outside the `tutorials` test), so a
`quickstart.md` discovered under `guides` is removed from the list yet
recorded nowhere: here the discovered guides listing contains
`quickstart.md`, but the grouped output's `How-to` branch lacks it and
no `Quickstart` key exists — the file silently vanishes, where the
claim (and the code's own `tutorials`-only intent) says the guides list
passes through unchanged. -/
theorem claim_C3_quickstart_dropped_from_guides :
    get_children fsFix "pkg/docs/admin/guides" =
      ["pkg/docs/admin/guides/a.md", "pkg/docs/admin/guides/quickstart.md"] ∧
    repo_grouping fsFix reposFix "{repo}/docs/admin/{content}"
      (some ["content"]) (some ["guides"]) =
      Except.ok (GroupResult.expanded
        [("Pkg A", [("How-to", QNav.files ["pkg/docs/admin/guides/a.md"])])]) :=
  ⟨rfl, rfl⟩

/-- C4 counterexample: both "inconsistent" combinations return normally
instead of failing fast — content types supplied with a `{content}`-free
template are silently ignored (simple grouping runs), and a `{content}`
template with no content types silently uses the default list. -/
theorem claim_C4_counterexample :
    hasContentField "{repo}/docs/dev/guides" = false ∧
    repo_grouping emptyFS reposFix "{repo}/docs/dev/guides" none (some ["guides"]) =
      Except.ok (GroupResult.simple []) ∧
    hasContentField "{repo}/docs/dev/{content}" = true ∧
    repo_grouping emptyFS reposFix "{repo}/docs/dev/{content}" none none =
      Except.ok (GroupResult.expanded [("Pulp Core", []), ("Pkg A", [])]) :=
  ⟨rfl, rfl, rfl, rfl⟩

/-- C4 amended: `repo_grouping` performs no template/content-type
consistency check: without `{content}` in the template, any supplied
content types are ignored (the result equals the no-content-types
call), and without supplied content types the default
`["tutorials", "guides", "learn"]` is used. -/
theorem claim_C4_amended (fs : FS) (repos : Repos) (template : String)
    (rt : Option (List String)) :
    (∀ cts : List String, hasContentField template = false →
      repo_grouping fs repos template rt (some cts) =
        repo_grouping fs repos template rt none) ∧
    repo_grouping fs repos template rt none =
      repo_grouping fs repos template rt (some ["tutorials", "guides", "learn"]) :=
  ⟨fun cts hT => repo_grouping_content_types_ignored fs repos template rt cts hT,
   repo_grouping_none_eq_default fs repos template rt⟩

/-- C4 amended witness. -/
theorem claim_C4_amended_witness :
    repo_grouping emptyFS reposFix "{repo}/docs/dev/guides" none (some ["guides"]) =
      repo_grouping emptyFS reposFix "{repo}/docs/dev/guides" none none :=
  (claim_C4_amended emptyFS reposFix "{repo}/docs/dev/guides" none).1 ["guides"] rfl

/-- C5 counterexample: with the primary repository named `core` (as in
the package's own test fixtures), `section_file` still resolves under
the literal `pulpcore`, and the persona build's Getting-Started
children are discovered from `pulpcore/...` — empty here — even though
the primary repository itself has a tutorials file; this refutes the
claim for "any primary repository name". -/
theorem claim_C5_counterexample :
    reposFix.core_repo.name = "core" ∧
    section_file "help/index.md" = "pulpcore/docs/sections/help/index.md" ∧
    section_file "help/index.md" ≠ reposFix.core_repo.name ++ "/docs/sections/help/index.md" ∧
    get_children fsFix (reposFix.core_repo.name ++ "/docs/user/tutorials") =
      ["core/docs/user/tutorials/first-steps.md"] ∧
    ((grouped_by_persona fsFix reposFix).toOption.bind
        (fun nav => sectionGet nav "User Manual")).bind
      (fun s => sectionGet s "Getting Started") =
      some (Nav.dict [("Tutorial", navOfFiles []), ("Learn", navOfFiles []),
        ("How-to", navOfFiles [])]) :=
  ⟨rfl, rfl, by decide, rfl, rfl⟩

/-- C5 amended: all fixed-root paths of the builder are rooted at the
literal string `pulpcore`, not at the primary repository's name:
`section_file` returns `pulpcore/docs/sections/<rel>` without existence
checking, `section_children` discovers against that same root, and each
persona's Getting-Started children (Tutorial, Learn, How-to) are
discovered from the fixed `pulpcore/docs/<persona>/...` paths — these
coincide with the primary repository only when it is named
`pulpcore`. -/
theorem claim_C5_amended :
    (∀ s, section_file s = "pulpcore/docs/sections/" ++ s) ∧
    (∀ (fs : FS) (s : String),
      section_children fs s = get_children fs ("pulpcore/docs/sections/" ++ s)) ∧
    (∀ (fs : FS) (repos : Repos), ∃ nav,
      grouped_by_persona fs repos = Except.ok nav ∧
      (sectionGet nav "User Manual").bind (fun s => sectionGet s "Getting Started") =
        some (Nav.dict
          [("Tutorial", navOfFiles (get_children fs "pulpcore/docs/user/tutorials")),
           ("Learn", navOfFiles (get_children fs "pulpcore/docs/user/learn")),
           ("How-to", navOfFiles (get_children fs "pulpcore/docs/user/guides"))]) ∧
      (sectionGet nav "Admin Manual").bind (fun s => sectionGet s "Getting Started") =
        some (Nav.dict
          [("Tutorial", navOfFiles (get_children fs "pulpcore/docs/admin/tutorials")),
           ("Learn", navOfFiles (get_children fs "pulpcore/docs/admin/learn")),
           ("How-to", navOfFiles (get_children fs "pulpcore/docs/admin/guides"))]) ∧
      (sectionGet nav "Development").bind (fun s => sectionGet s "Getting Started") =
        some (Nav.dict
          [("Tutorial", navOfFiles (get_children fs "pulpcore/docs/dev/tutorials")),
           ("Learn", navOfFiles (get_children fs "pulpcore/docs/dev/learn")),
           ("How-to", navOfFiles (get_children fs "pulpcore/docs/dev/guides"))])) := by
  refine ⟨fun s => rfl, fun fs s => rfl, ?_⟩
  intro fs repos
  rcases grouped_by_persona_ok fs repos with ⟨u1, u2, a1, a2, d1, d2, h1, h2, h3, h4, h5, h6⟩
  refine ⟨_, grouped_by_persona_eq fs repos _ _ _ _ _ _ h1 h2 h3 h4 h5 h6, rfl, rfl, rfl⟩

/-- C6: `get_children` returns `[]` when the directory does not exist;
otherwise it returns exactly the immediate `*.md` children not starting
with `_`, as tmpdir-relative paths, sorted ascending by the full path
string; files `b.md`, `a.md`, `c.md` come out as `[a.md, b.md, c.md]`
and a `_draft.md` child never appears. -/
theorem claim_C6_get_children :
    (∀ (fs : FS) (p : String), fs p = none → get_children fs p = []) ∧
    (∀ (fs : FS) (p : String) (l : List String), fs p = some l →
      (get_children fs p).Perm (childListing p l) ∧
      List.Sorted strRel (get_children fs p)) ∧
    (∀ (fs : FS) (p : String) (l : List String) (n : String), fs p = some l →
      strStartsWith n "_" = true → (p ++ "/" ++ n) ∉ get_children fs p) ∧
    get_children fsSortFix "d" = ["d/a.md", "d/b.md", "d/c.md"] := by
  refine ⟨get_children_of_none, ?_, get_children_no_private, rfl⟩
  intro fs p l h
  exact ⟨get_children_perm fs p l h, get_children_sorted fs p⟩

/-- C6 witness: the theorem applied to the fixture listing. -/
theorem claim_C6_get_children_witness :
    get_children fsSortFix "nodir" = [] ∧
    (get_children fsSortFix "d").Perm
      (childListing "d" ["b.md", "a.md", "c.md", "_draft.md", "notes.txt"]) ∧
    ("d" ++ "/" ++ "_draft.md") ∉ get_children fsSortFix "d" :=
  ⟨claim_C6_get_children.1 fsSortFix "nodir" rfl,
   (claim_C6_get_children.2.1 fsSortFix "d" _ rfl).1,
   claim_C6_get_children.2.2.1 fsSortFix "d" _ "_draft.md" rfl rfl⟩

/-- C7: for every repository of the set (under distinct titles),
`repo_reference_grouping` unconditionally emits exactly the four fixed
sections, in order REST API, Readme, Code API, Changelog; when the
repo's `docs/reference` directory is absent the Code API entry is the
empty listing. -/
theorem claim_C7_reference_grouping (fs : FS) (repos : Repos) (repo : Repo)
    (hmem : repo ∈ repos.all)
    (hpw : List.Pairwise (fun a b => a.title ≠ b.title) repos.all) :
    dictGet (repo_reference_grouping fs repos) repo.title =
      some [("REST API", RefVal.link (repo.name ++ "/docs/rest_api.md")),
            ("Readme", RefVal.link (repo.name ++ "/README.md")),
            ("Code API", RefVal.files (get_children fs (repo.name ++ "/docs/reference"))),
            ("Changelog", RefVal.link (repo.name ++ "/CHANGELOG.md"))] ∧
    (fs (repo.name ++ "/docs/reference") = none →
      dictGet (repo_reference_grouping fs repos) repo.title =
        some [("REST API", RefVal.link (repo.name ++ "/docs/rest_api.md")),
              ("Readme", RefVal.link (repo.name ++ "/README.md")),
              ("Code API", RefVal.files []),
              ("Changelog", RefVal.link (repo.name ++ "/CHANGELOG.md"))]) := by
  have hlook := refGo_lookup fs repos.all [] repo hpw hmem
  have hsec : refSections fs repo =
      [("REST API", RefVal.link (repo.name ++ "/docs/rest_api.md")),
       ("Readme", RefVal.link (repo.name ++ "/README.md")),
       ("Code API", RefVal.files (get_children fs (repo.name ++ "/docs/reference"))),
       ("Changelog", RefVal.link (repo.name ++ "/CHANGELOG.md"))] := by
    rw [refSections, strReplace_repo_reference]
  constructor
  · rw [repo_reference_grouping, hlook, hsec]
  · intro hnone
    rw [repo_reference_grouping, hlook, hsec, get_children_of_none fs _ hnone]

/-- C7 witness: the fixture set on the empty filesystem. -/
theorem claim_C7_reference_grouping_witness :
    dictGet (repo_reference_grouping emptyFS reposFix) "Pkg A" =
      some [("REST API", RefVal.link "pkg/docs/rest_api.md"),
            ("Readme", RefVal.link "pkg/README.md"),
            ("Code API", RefVal.files []),
            ("Changelog", RefVal.link "pkg/CHANGELOG.md")] :=
  (claim_C7_reference_grouping emptyFS reposFix repoPkgA (by decide) (by decide)).2 rfl

/-- C8 counterexample: two repositories sharing the name `dup` are
accepted — construction succeeds, no collision check exists, refuting
the claim that any name collision raises. -/
theorem claim_C8_counterexample :
    (RepoData.mk "A" "dup").name = (RepoData.mk "B" "dup").name ∧
    repos_from_yaml [RepoData.mk "A" "dup"] [RepoData.mk "B" "dup"] [] =
      Except.ok
        { core_repo := { title := "A", name := "dup", owner := "pulp", branch := "main",
                         type := some "core" }
          content_repos := [{ title := "B", name := "dup", owner := "pulp", branch := "main",
                              type := some "content" }]
          other_repos := [] } :=
  ⟨rfl, rfl⟩

/-- C8 amended: construction from configuration fails exactly when zero
primary repositories are supplied (`repos["core"][0]` raises
`IndexError`); duplicate repository names are never checked, so a
colliding set constructs successfully. -/
theorem claim_C8_amended (core content other : List RepoData) :
    (repos_from_yaml core content other).isOk = true ↔ core ≠ [] := by
  cases core with
  | nil => simp [repos_from_yaml, Except.isOk, Except.toBool]
  | cons c cs => simp [repos_from_yaml, Except.isOk, Except.toBool]

/-- C8 amended witness: a one-entry core list constructs. -/
theorem claim_C8_amended_witness :
    (repos_from_yaml [RepoData.mk "A" "x"] [] []).isOk = true :=
  (claim_C8_amended [RepoData.mk "A" "x"] [] []).mpr (by simp)

/-- C9: `Repos.all` is the primary repository followed by the content
repositories and then the auxiliary repositories, order-preserving. -/
theorem claim_C9_all_listing (r : Repos) :
    r.all.head? = some r.core_repo ∧
    r.all.tail = r.content_repos ++ r.other_repos ∧
    (r.all.take (r.content_repos.length + 1)).tail = r.content_repos ∧
    r.all.drop (r.content_repos.length + 1) = r.other_repos := by
  refine ⟨rfl, rfl, ?_, ?_⟩
  · show ((r.core_repo :: (r.content_repos ++ r.other_repos)).take
      (r.content_repos.length + 1)).tail = r.content_repos
    rw [List.take_succ_cons]
    exact List.take_left _ _
  · show (r.core_repo :: (r.content_repos ++ r.other_repos)).drop
      (r.content_repos.length + 1) = r.other_repos
    rw [List.drop_succ_cons]
    exact List.drop_left _ _

/-- C10: `repo_grouping` selects repositories via the attribute
`<entry>_repos`; entries `content` and `other` always resolve, while any
other entry — `core` included, since the field is `core_repo` — raises
`AttributeError`. -/
theorem claim_C10_attribute_lookup :
    (∀ (repos : Repos) (names : List String),
      (∀ n ∈ names, n = "content" ∨ n = "other") →
      ∃ rs, select_repos repos (some names) = Except.ok rs) ∧
    (∀ (repos : Repos) (names : List String) (n : String),
      n ∈ names → n ≠ "content" → n ≠ "other" →
      ∃ e, select_repos repos (some names) = Except.error e) ∧
    (∀ (fs : FS) (repos : Repos) (template : String) (cts : Option (List String)),
      repo_grouping fs repos template (some ["core"]) cts =
        Except.error "AttributeError: 'Repos' object has no attribute 'core_repos'") ∧
    (∀ repos : Repos, getattr_repos repos "core_repos" = none) := by
  refine ⟨?_, ?_, ?_, fun repos => rfl⟩
  · intro repos names h
    cases names with
    | nil => exact ⟨repos.all, rfl⟩
    | cons m ms => exact selectGo_ok repos (m :: ms) h []
  · intro repos names n hmem h1 h2
    cases names with
    | nil => simp at hmem
    | cons m ms => exact selectGo_err repos (m :: ms) n hmem h1 h2 []
  · intro fs repos template cts
    exact repo_grouping_eq_error fs repos template (some ["core"]) cts _ rfl

/-- C10 witness: both outcomes at the fixture set. -/
theorem claim_C10_attribute_lookup_witness :
    (∃ rs, select_repos reposFix (some ["content", "other"]) = Except.ok rs) ∧
    (∃ e, select_repos reposFix (some ["core"]) = Except.error e) :=
  ⟨claim_C10_attribute_lookup.1 reposFix ["content", "other"] (by decide),
   claim_C10_attribute_lookup.2.1 reposFix ["core"] "core" (by decide) (by decide) (by decide)⟩

end PulpDocs







